import Mathlib

/-!
Shallow embedding of the product-availability matching routine of
`src/server.js` (endpoint `POST /api/shopify/products-availability`,
lines 222-349; the same routine is repeated verbatim in the other file
variants of the repository).  Pure string manipulation is modelled over
`List Char`; the upstream catalog API is modelled as the finite list of
fetch outcomes the `while (nextPageUrl)` loop would observe, one entry
consumed per `axios.get`.
-/

namespace Loft73

/-- JS whitespace for `String.prototype.trim` (the common ASCII subset:
space, tab, newline, carriage return). -/
def isJsWhitespace (c : Char) : Bool :=
  c == ' ' || c == '\t' || c == '\n' || c == '\r'

/-- `trim()` on the character list: drop whitespace from both ends. -/
def jsTrimList (l : List Char) : List Char :=
  ((l.dropWhile isJsWhitespace).reverse.dropWhile isJsWhitespace).reverse

/-- JS `s.trim()`. -/
def jsTrim (s : String) : String := ⟨jsTrimList s.data⟩

/-- JS `s.toLowerCase()` (ASCII case folding, which covers the
repository's data). -/
def jsToLower (s : String) : String := ⟨s.data.map Char.toLower⟩

/-- The normalisation applied to every product name and catalog title:
`x.toLowerCase().trim()` (server.js lines 245 and 273). -/
def normKey (s : String) : String := jsTrim (jsToLower s)

/-- `needle.isPrefixOf hay` on character lists. -/
def isPrefixL : List Char → List Char → Bool
  | [], _ => true
  | _ :: _, [] => false
  | a :: as, b :: bs => a == b && isPrefixL as bs

/-- `needle` occurs as a contiguous substring of the list. -/
def isInfixL (needle : List Char) : List Char → Bool
  | [] => needle.isEmpty
  | b :: bs => isPrefixL needle (b :: bs) || isInfixL needle bs

/-- JS `hay.includes(sub)`: `sub` is a substring of `hay`. -/
def jsIncludes (hay sub : String) : Bool := isInfixL sub.data hay.data

/-- An entry of the caller-supplied `products` array.  `name` is optional
because the code never validates its presence (`p.name.toLowerCase()`
throws when it is absent); `payload` stands for the opaque remaining
fields. -/
structure CsvProduct where
  name : Option String
  payload : Nat
  deriving DecidableEq, Repr

/-- A variant of a Shopify catalog product; `inventory_quantity` may be
missing or null (`variant.inventory_quantity || 0`). -/
structure Variant where
  inventory_quantity : Option Int
  deriving DecidableEq, Repr

/-- A Shopify catalog product as consumed by the matcher: `id`, `title`,
optional `variants`, opaque `images`. -/
structure ShopifyProduct where
  id : Nat
  title : String
  variants : Option (List Variant)
  images : List Nat
  deriving DecidableEq, Repr

/-- `Map.prototype.set` on an insertion-ordered association list: if the
key is already present the value is overwritten in place (the original
insertion position is kept), otherwise the pair is appended. -/
def mapSet (m : List (String × CsvProduct)) (k : String) (v : CsvProduct) :
    List (String × CsvProduct) :=
  if m.any (fun e => e.1 == k) then
    m.map (fun e => if e.1 == k then (k, v) else e)
  else m ++ [(k, v)]

/-- The message of the TypeError Node raises for
`undefined.toLowerCase()`; it reaches the client through the outer
`catch` as `error.message`. -/
def typeErrorMsg : String :=
  "TypeError: Cannot read properties of undefined (reading toLowerCase)"

/-- `csvProductMap` construction (server.js lines 243-247):
`products.forEach(p => map.set(p.name.toLowerCase().trim(), p))`.
Throws (models as `Except.error`) at the first element without a
`name`. -/
def buildMap (ps : List CsvProduct) :
    Except String (List (String × CsvProduct)) :=
  ps.foldlM (fun m p =>
    match p.name with
    | none => Except.error typeErrorMsg
    | some n => Except.ok (mapSet m (normKey n) p)) []

/-- Total-function variant of the map construction, used to state
properties of runs in which every product has a name. -/
def keyOf (p : CsvProduct) : String := normKey (p.name.getD "")

/-- Pure counterpart of `buildMap` for inputs whose names are all
present. -/
def buildMapPure (ps : List CsvProduct) : List (String × CsvProduct) :=
  ps.foldl (fun m p => mapSet m (keyOf p) p) []

/-- Total available quantity of a catalog product (server.js lines
278-285): sum of `inventory_quantity || 0` over the variants, `0` when
the `variants` field is absent. -/
def totalAvailable (sp : ShopifyProduct) : Int :=
  match sp.variants with
  | none => 0
  | some vs => vs.foldl (fun acc v => acc + v.inventory_quantity.getD 0) 0

/-- One entry pushed onto `results` (server.js lines 287-296): the
original csv product, the projected Shopify product and the computed
availability.  `csvKey` records the map key the entry was bound to (in
the source it is the loop variable `csvKey`; it always equals the
normalised name of `csvProduct`). -/
structure MatchResult where
  csvKey : String
  csvProduct : CsvProduct
  shopifyId : Nat
  shopifyTitle : String
  shopifyVariants : Option (List Variant)
  shopifyImages : List Nat
  available : Int
  deriving DecidableEq, Repr

/-- The bidirectional containment test of server.js line 277:
`shopifyTitle.includes(csvKey) || csvKey.includes(shopifyTitle)`. -/
def keyMatches (shopifyTitle csvKey : String) : Bool :=
  jsIncludes shopifyTitle csvKey || jsIncludes csvKey shopifyTitle

/-- Build the result record for a hit. -/
def mkResult (k : String) (p : CsvProduct) (sp : ShopifyProduct) :
    MatchResult :=
  ⟨k, p, sp.id, sp.title, sp.variants, sp.images, totalAvailable sp⟩

/-- Inner loop of server.js lines 272-302 for a single catalog product:
scan the current map in iteration (= insertion) order, bind to the first
key passing `keyMatches`, emit one result, delete the key, break. -/
def matchProduct (sp : ShopifyProduct) (m : List (String × CsvProduct)) :
    Option MatchResult × List (String × CsvProduct) :=
  let t := normKey sp.title
  match m.find? (fun e => keyMatches t e.1) with
  | some e => (some (mkResult e.1 e.2 sp), m.eraseP (fun x => x.1 == e.1))
  | none => (none, m)

/-- The per-page matching loop (`for (const shopifyProduct of
shopifyProducts)`): processes the catalog products in order against the
shrinking map, accumulating results. -/
def runMatch (catalog : List ShopifyProduct)
    (m : List (String × CsvProduct)) :
    List MatchResult × List (String × CsvProduct) :=
  match catalog with
  | [] => ([], m)
  | sp :: rest =>
    let step := matchProduct sp m
    match step.1 with
    | some r =>
      let out := runMatch rest step.2
      (r :: out.1, out.2)
    | none => runMatch rest step.2

/-- One page of the upstream catalog API: the `products` array of the
response body plus the raw `Link` response header. -/
structure PageResponse where
  products : List ShopifyProduct
  linkHeader : Option String
  deriving DecidableEq, Repr

/-- Outcome of one `axios.get` of the pagination loop. -/
inductive FetchResult where
  | ok (page : PageResponse)
  | err (msg : String)
  deriving DecidableEq, Repr

/-- JS `header.split(',')` on the character list. -/
def splitOnComma : List Char → List (List Char)
  | [] => [[]]
  | c :: cs =>
    if c == ',' then [] :: splitOnComma cs
    else
      match splitOnComma cs with
      | [] => [[c]]
      | g :: gs => (c :: g) :: gs

/-- Prefix of the list strictly before its first `>`; `none` when no
`>` occurs. -/
def splitAtGt : List Char → Option (List Char)
  | [] => none
  | c :: cs => if c == '>' then some [] else (splitAtGt cs).map (c :: ·)

/-- The regex `/<(.+?)>/` of server.js line 313: leftmost `<` followed by
a lazily-minimal non-empty run of characters and a `>`; on failure the
scan resumes after that `<`. -/
def regexAngle : List Char → Option (List Char)
  | [] => none
  | c :: cs =>
    if c == '<' then
      match cs with
      | [] => none
      | d :: ds =>
        match splitAtGt ds with
        | some pre => some (d :: pre)
        | none => regexAngle cs
    else regexAngle cs

/-- The characters of `rel="next"`. -/
def relNextPat : List Char := "rel=\"next\"".data

/-- Link-header parsing of server.js lines 309-319: split on commas, and
for every part containing `rel="next"` take the regex capture when it
succeeds (a later well-formed part overwrites an earlier one; a
malformed part leaves the previous value in place). -/
def parseNextFromHeader (h : String) : Option String :=
  (splitOnComma h.data).foldl (fun acc link =>
    if isInfixL relNextPat link then
      match regexAngle link with
      | some u => some (String.mk u)
      | none => acc
    else acc) none

/-- `nextPageUrl` after a page is processed: `null` when the `link`
header is absent, otherwise the parsed next URL. -/
def parseNextUrl (h : Option String) : Option String :=
  match h with
  | none => none
  | some s => parseNextFromHeader s

/-- Mutable state of the pagination loop: the shrinking csv map, the
accumulated `results`, the running `totalProducts` counter, and the
trace of fetches performed (URL, whether the `limit`/`fields` params
were sent — `nextPageUrl === shopifyUrl` in the source). -/
structure LoopState where
  map : List (String × CsvProduct)
  results : List MatchResult
  totalProducts : Nat
  fetches : List (String × Bool)
  deriving DecidableEq, Repr

/-- The `while (nextPageUrl)` loop of server.js lines 255-325, consuming
one entry of `upstream` per fetch.  A transport error is logged and
`break`s (it is swallowed: the partial state is kept and the loop
exits).  The loop also stops when the model's finite outcome list is
exhausted. -/
def paginateLoop (baseUrl : String) :
    Option String → List FetchResult → LoopState → LoopState
  | none, _, st => st
  | some _, [], st => st
  | some url, fr :: rest, st =>
    let withFetch : LoopState :=
      ⟨st.map, st.results, st.totalProducts,
        st.fetches ++ [(url, url == baseUrl)]⟩
    match fr with
    | .err _ => withFetch
    | .ok page =>
      let matched := runMatch page.products withFetch.map
      let st2 : LoopState :=
        ⟨matched.2, withFetch.results ++ matched.1,
          withFetch.totalProducts + page.products.length,
          withFetch.fetches⟩
      paginateLoop baseUrl (parseNextUrl page.linkHeader) rest st2

/-- Two-digit zero padding of the fractional part. -/
def pad2 (n : Nat) : String := if n < 10 then "0" ++ toString n else toString n

/-- `Number.prototype.toFixed(2)` on a non-negative exact rational:
round to the nearest hundredth, ties away from zero.  Spec-side
formatter, compared against the executable `matchRateStr` below. -/
def toFixed2 (q : ℚ) : String :=
  let n : ℤ := ⌊q * 100 + 1 / 2⌋
  toString (n / 100) ++ "." ++ pad2 (n % 100).toNat

/-- `((results.length / products.length) * 100).toFixed(2)` (server.js
line 338).  In JS `0/0` is `NaN` and `m/0` with `m > 0` is `Infinity`;
`toFixed` renders them as the corresponding strings.  For `total ≠ 0`
the percentage `(matched/total)*100` is rounded half-up to two decimal
places, computed here in exact integer arithmetic:
`n = ⌊(matched/total)*10000 + 1/2⌋ = (20000*matched + total) / (2*total)`. -/
def matchRateStr (matched total : Nat) : String :=
  if total = 0 then (if matched = 0 then "NaN" else "Infinity")
  else
    let n : Nat := (20000 * matched + total) / (2 * total)
    toString (n / 100) ++ "." ++ pad2 (n % 100)

/-- The `stats` block of the 200 response (server.js lines 333-339). -/
structure Stats where
  totalCsvProducts : Nat
  totalShopifyProducts : Nat
  matchedProducts : Nat
  unmatchedProducts : Nat
  matchRate : String
  deriving DecidableEq, Repr

/-- The `products` field of the request body: absent (or otherwise
falsy), present but not an array, or an actual array. -/
inductive ProductsField where
  | absent
  | notArray
  | arr (products : List CsvProduct)
  deriving DecidableEq, Repr

/-- The three response shapes of the endpoint: 400, 500, and the 200
success payload. -/
inductive ApiResponse where
  | badRequest (error : String)
  | serverError (error : String)
  | success (results : List MatchResult) (stats : Stats)
  deriving DecidableEq, Repr

/-- The full handler of `POST /api/shopify/products-availability`
(server.js lines 222-349): validation, token check, map construction
(whose TypeError lands in the outer catch as a 500), pagination with
interleaved matching, and the final report. -/
def productsAvailability (hasToken : Bool) (baseUrl : String)
    (body : ProductsField) (upstream : List FetchResult) : ApiResponse :=
  match body with
  | .absent => .badRequest "Lista prodotti mancante o invalida"
  | .notArray => .badRequest "Lista prodotti mancante o invalida"
  | .arr products =>
    if hasToken then
      match buildMap products with
      | .error msg => .serverError msg
      | .ok m =>
        let final := paginateLoop baseUrl (some baseUrl) upstream
          ⟨m, [], 0, []⟩
        .success final.results
          ⟨products.length, final.totalProducts, final.results.length,
            final.map.length,
            matchRateStr final.results.length products.length⟩
    else .serverError "Shopify Access Token non configurato"

/-- `true` exactly on 400 responses. -/
def isBadRequest : ApiResponse → Bool
  | .badRequest _ => true
  | _ => false

/-- `true` exactly on 500 responses. -/
def isServerError : ApiResponse → Bool
  | .serverError _ => true
  | _ => false

/-- The stats block of a 200 response. -/
def statsOf : ApiResponse → Option Stats
  | .success _ st => some st
  | _ => none


theorem isInfixL_nil (l : List Char) : isInfixL [] l = true := by
  cases l <;> simp [isInfixL, isPrefixL, List.isEmpty]

theorem find?_append_first {α} (p : α → Bool) (pre post : List α) (e : α)
    (hpre : ∀ x ∈ pre, p x = false) (he : p e = true) :
    (pre ++ e :: post).find? p = some e := by
  induction pre with
  | nil => simp [List.find?_cons, he]
  | cons a as ih =>
    have ha := hpre a (by simp)
    simp only [List.cons_append, List.find?_cons, ha]
    exact ih (fun x hx => hpre x (by simp [hx]))

theorem matchProduct_eq_some {sp : ShopifyProduct}
    {m : List (String × CsvProduct)} {e : String × CsvProduct}
    (hf : m.find? (fun x => keyMatches (normKey sp.title) x.1) = some e) :
    matchProduct sp m =
      (some (mkResult e.1 e.2 sp), m.eraseP (fun x => x.1 == e.1)) := by
  simp [matchProduct, hf]

theorem matchProduct_eq_none {sp : ShopifyProduct}
    {m : List (String × CsvProduct)}
    (hf : m.find? (fun x => keyMatches (normKey sp.title) x.1) = none) :
    matchProduct sp m = (none, m) := by
  simp [matchProduct, hf]

theorem runMatch_cons_some {sp : ShopifyProduct} {rest : List ShopifyProduct}
    {m m2 : List (String × CsvProduct)} {r : MatchResult}
    (h : matchProduct sp m = (some r, m2)) :
    runMatch (sp :: rest) m =
      (r :: (runMatch rest m2).1, (runMatch rest m2).2) := by
  simp [runMatch, h]

theorem runMatch_cons_none {sp : ShopifyProduct} {rest : List ShopifyProduct}
    {m m2 : List (String × CsvProduct)}
    (h : matchProduct sp m = (none, m2)) :
    runMatch (sp :: rest) m = runMatch rest m2 := by
  simp [runMatch, h]

theorem runMatch_length (catalog : List ShopifyProduct) :
    ∀ m, (runMatch catalog m).1.length + (runMatch catalog m).2.length
      = m.length := by
  induction catalog with
  | nil => intro m; simp [runMatch]
  | cons sp rest ih =>
    intro m
    cases hf : m.find? (fun x => keyMatches (normKey sp.title) x.1) with
    | none => rw [runMatch_cons_none (matchProduct_eq_none hf)]; exact ih m
    | some e =>
      rw [runMatch_cons_some (matchProduct_eq_some hf)]
      have hmem := List.mem_of_find?_eq_some hf
      have hlen : (m.eraseP (fun x => x.1 == e.1)).length = m.length - 1 :=
        List.length_eraseP_of_mem hmem (by simp)
      have hpos : 0 < m.length := List.length_pos.mpr
        (by rintro rfl; simp at hmem)
      have := ih (m.eraseP (fun x => x.1 == e.1))
      simp only [List.length_cons]
      omega

theorem runMatch_map_sublist (catalog : List ShopifyProduct) :
    ∀ m, (runMatch catalog m).2.Sublist m := by
  induction catalog with
  | nil => intro m; simp [runMatch]
  | cons sp rest ih =>
    intro m
    cases hf : m.find? (fun x => keyMatches (normKey sp.title) x.1) with
    | none => rw [runMatch_cons_none (matchProduct_eq_none hf)]; exact ih m
    | some e =>
      rw [runMatch_cons_some (matchProduct_eq_some hf)]
      exact (ih _).trans (List.eraseP_sublist m)



theorem eraseP_key_keys (m : List (String × CsvProduct)) (k : String) :
    (m.eraseP (fun x => x.1 == k)).map Prod.fst = (m.map Prod.fst).erase k := by
  induction m with
  | nil => rfl
  | cons e rest ih =>
    by_cases h : e.1 = k
    · simp [List.eraseP_cons, h, List.erase_cons]
    · simp [List.eraseP_cons, h, List.erase_cons, ih]

theorem runMatch_keys (catalog : List ShopifyProduct) :
    ∀ m, (m.map Prod.fst).Nodup →
      ((runMatch catalog m).1.map (fun r => r.csvKey)).Nodup ∧
      (∀ k, k ∈ (runMatch catalog m).1.map (fun r => r.csvKey) →
        k ∈ m.map Prod.fst ∧ k ∉ (runMatch catalog m).2.map Prod.fst) ∧
      ((runMatch catalog m).2.map Prod.fst).Nodup := by
  induction catalog with
  | nil =>
    intro m hm
    refine ⟨by simp [runMatch], ?_, by simpa [runMatch]⟩
    intro k hk
    simp [runMatch] at hk
  | cons sp rest ih =>
    intro m hm
    cases hf : m.find? (fun x => keyMatches (normKey sp.title) x.1) with
    | none =>
      rw [runMatch_cons_none (matchProduct_eq_none hf)]
      exact ih m hm
    | some e =>
      rw [runMatch_cons_some (matchProduct_eq_some hf)]
      have hmem : e ∈ m := List.mem_of_find?_eq_some hf
      have hkeymem : e.1 ∈ m.map Prod.fst := List.mem_map_of_mem Prod.fst hmem
      set m2 := m.eraseP (fun x => x.1 == e.1) with hm2
      have hkeys2 : m2.map Prod.fst = (m.map Prod.fst).erase e.1 :=
        eraseP_key_keys m e.1
      have hm2nd : (m2.map Prod.fst).Nodup := by
        rw [hkeys2]; exact hm.erase e.1
      have hnotin2 : e.1 ∉ m2.map Prod.fst := by
        rw [hkeys2]
        intro hcon
        exact ((hm.mem_erase_iff).mp hcon).1 rfl
      have hsub2 : m2.map Prod.fst ⊆ m.map Prod.fst := by
        rw [hkeys2]; exact List.erase_subset e.1 (m.map Prod.fst)
      obtain ⟨ihnd, ihmem, ihmapnd⟩ := ih m2 hm2nd
      have hsubkeys : (runMatch rest m2).2.map Prod.fst ⊆ m2.map Prod.fst :=
        ((runMatch_map_sublist rest m2).map Prod.fst).subset
      refine ⟨?_, ?_, ihmapnd⟩
      · simp only [List.map_cons, List.nodup_cons]
        refine ⟨fun hcon => ?_, ihnd⟩
        have : (mkResult e.1 e.2 sp).csvKey = e.1 := rfl
        rw [this] at hcon
        exact hnotin2 (ihmem e.1 hcon).1
      · intro k hk
        simp only [List.map_cons, List.mem_cons] at hk
        rcases hk with hk | hk
        · have hkey : (mkResult e.1 e.2 sp).csvKey = e.1 := rfl
          rw [hkey] at hk
          subst hk
          exact ⟨hkeymem, fun hcon => hnotin2 (hsubkeys hcon)⟩
        · obtain ⟨hin, hnotfin⟩ := ihmem k hk
          exact ⟨hsub2 hin, hnotfin⟩



theorem paginateLoop_none (baseUrl : String) (ups : List FetchResult)
    (st : LoopState) : paginateLoop baseUrl none ups st = st := by
  cases ups <;> simp [paginateLoop]

theorem paginateLoop_nil (baseUrl url : String) (st : LoopState) :
    paginateLoop baseUrl (some url) [] st = st := by
  simp [paginateLoop]

theorem paginateLoop_cons_err (baseUrl url msg : String)
    (rest : List FetchResult) (st : LoopState) :
    paginateLoop baseUrl (some url) (.err msg :: rest) st =
      ⟨st.map, st.results, st.totalProducts,
        st.fetches ++ [(url, url == baseUrl)]⟩ := by
  simp [paginateLoop]

theorem paginateLoop_cons_ok (baseUrl url : String) (page : PageResponse)
    (rest : List FetchResult) (st : LoopState) :
    paginateLoop baseUrl (some url) (.ok page :: rest) st =
      paginateLoop baseUrl (parseNextUrl page.linkHeader) rest
        ⟨(runMatch page.products st.map).2,
          st.results ++ (runMatch page.products st.map).1,
          st.totalProducts + page.products.length,
          st.fetches ++ [(url, url == baseUrl)]⟩ := by
  simp [paginateLoop]

theorem paginateLoop_conservation (baseUrl : String)
    (ups : List FetchResult) :
    ∀ nextUrl st,
      (paginateLoop baseUrl nextUrl ups st).results.length +
        (paginateLoop baseUrl nextUrl ups st).map.length =
      st.results.length + st.map.length := by
  induction ups with
  | nil =>
    intro nextUrl st
    cases nextUrl with
    | none => rw [paginateLoop_none]
    | some u => rw [paginateLoop_nil]
  | cons fr rest ih =>
    intro nextUrl st
    cases nextUrl with
    | none => rw [paginateLoop_none]
    | some u =>
      cases fr with
      | err msg => rw [paginateLoop_cons_err]
      | ok page =>
        rw [paginateLoop_cons_ok]
        rw [ih]
        simp only [List.length_append]
        have := runMatch_length page.products st.map
        omega

theorem paginateLoop_map_sublist (baseUrl : String)
    (ups : List FetchResult) :
    ∀ nextUrl st,
      (paginateLoop baseUrl nextUrl ups st).map.Sublist st.map := by
  induction ups with
  | nil =>
    intro nextUrl st
    cases nextUrl with
    | none => rw [paginateLoop_none]
    | some u => rw [paginateLoop_nil]
  | cons fr rest ih =>
    intro nextUrl st
    cases nextUrl with
    | none => rw [paginateLoop_none]
    | some u =>
      cases fr with
      | err msg => rw [paginateLoop_cons_err]
      | ok page =>
        rw [paginateLoop_cons_ok]
        exact (ih _ _).trans (runMatch_map_sublist page.products st.map)

theorem paginateLoop_keys (baseUrl : String) (ups : List FetchResult) :
    ∀ nextUrl st,
      (st.map.map Prod.fst).Nodup →
      (st.results.map (fun r => r.csvKey)).Nodup →
      (∀ k ∈ st.results.map (fun r => r.csvKey), k ∉ st.map.map Prod.fst) →
      ((paginateLoop baseUrl nextUrl ups st).results.map
        (fun r => r.csvKey)).Nodup := by
  induction ups with
  | nil =>
    intro nextUrl st hmap hres hdisj
    cases nextUrl with
    | none => rw [paginateLoop_none]; exact hres
    | some u => rw [paginateLoop_nil]; exact hres
  | cons fr rest ih =>
    intro nextUrl st hmap hres hdisj
    cases nextUrl with
    | none => rw [paginateLoop_none]; exact hres
    | some u =>
      cases fr with
      | err msg => rw [paginateLoop_cons_err]; exact hres
      | ok page =>
        rw [paginateLoop_cons_ok]
        obtain ⟨hnd2, hmem2, hmapnd2⟩ := runMatch_keys page.products st.map hmap
        apply ih
        · exact hmapnd2
        · simp only [List.map_append, List.nodup_append]
          refine ⟨hres, hnd2, ?_⟩
          intro k hk hk2
          exact hdisj k hk (hmem2 k hk2).1
        · intro k hk
          simp only [List.map_append, List.mem_append] at hk
          rcases hk with hk | hk
          · intro hcon
            have hsub : (runMatch page.products st.map).2.map Prod.fst ⊆
                st.map.map Prod.fst :=
              ((runMatch_map_sublist page.products st.map).map Prod.fst).subset
            exact hdisj k hk (hsub hcon)
          · exact (hmem2 k hk).2



theorem buildMap_go_ok (ps : List CsvProduct) :
    ∀ m, (∀ p ∈ ps, p.name.isSome) →
      ps.foldlM (fun m p =>
        match p.name with
        | none => Except.error typeErrorMsg
        | some n => Except.ok (mapSet m (normKey n) p)) m =
      Except.ok (ps.foldl (fun m p => mapSet m (keyOf p) p) m) := by
  induction ps with
  | nil => intro m h; rfl
  | cons p rest ih =>
    intro m h
    have hp := h p (by simp)
    cases hn : p.name with
    | none => rw [hn] at hp; simp at hp
    | some n =>
      have hkey : keyOf p = normKey n := by simp [keyOf, hn]
      simp only [List.foldlM_cons, List.foldl_cons, hn, hkey]
      rw [← ih (mapSet m (normKey n) p) (fun q hq => h q (by simp [hq]))]
      rfl

theorem buildMap_ok_of_names (ps : List CsvProduct)
    (h : ∀ p ∈ ps, p.name.isSome) :
    buildMap ps = Except.ok (buildMapPure ps) :=
  buildMap_go_ok ps [] h

theorem buildMap_error_of_none (ps : List CsvProduct)
    (h : ∃ p ∈ ps, p.name = none) :
    buildMap ps = Except.error typeErrorMsg := by
  suffices hgen : ∀ m, ps.foldlM (fun m p =>
      match p.name with
      | none => Except.error typeErrorMsg
      | some n => Except.ok (mapSet m (normKey n) p)) m =
        Except.error typeErrorMsg from hgen []
  induction ps with
  | nil => simp at h
  | cons p rest ih =>
    intro m
    cases hn : p.name with
    | none =>
      simp only [List.foldlM_cons, hn]
      rfl
    | some n =>
      obtain ⟨q, hq, hqn⟩ := h
      rcases List.mem_cons.mp hq with rfl | hq2
      · rw [hn] at hqn; simp at hqn
      · simp only [List.foldlM_cons, hn]
        show List.foldlM _ (mapSet m (normKey n) p) rest = _
        exact ih ⟨q, hq2, hqn⟩ (mapSet m (normKey n) p)

theorem mapSet_keys_mem {m : List (String × CsvProduct)} {k : String}
    {v : CsvProduct} (h : k ∈ m.map Prod.fst) :
    (mapSet m k v).map Prod.fst = m.map Prod.fst := by
  have hany : m.any (fun e => e.1 == k) = true := by
    simp only [List.any_eq_true, beq_iff_eq]
    obtain ⟨e, he, hek⟩ := List.mem_map.mp h
    exact ⟨e, he, hek⟩
  simp only [mapSet, hany, if_true, List.map_map]
  apply List.map_congr_left
  intro e he
  by_cases hek : e.1 = k
  · simp [Function.comp, hek]
  · simp [Function.comp, hek]

theorem mapSet_keys_new {m : List (String × CsvProduct)} {k : String}
    {v : CsvProduct} (h : k ∉ m.map Prod.fst) :
    (mapSet m k v).map Prod.fst = m.map Prod.fst ++ [k] := by
  have hany : m.any (fun e => e.1 == k) = false := by
    simp only [List.any_eq_false, beq_iff_eq]
    intro e he hek
    exact h (List.mem_map.mpr ⟨e, he, hek⟩)
  simp [mapSet, hany]

theorem buildMapPure_go_keys (ps : List CsvProduct) :
    ∀ m, (m.map Prod.fst ++ ps.map keyOf).Nodup →
      (ps.foldl (fun m p => mapSet m (keyOf p) p) m).map Prod.fst =
        m.map Prod.fst ++ ps.map keyOf := by
  induction ps with
  | nil => intro m h; simp
  | cons p rest ih =>
    intro m h
    have hnotin : keyOf p ∉ m.map Prod.fst := by
      simp only [List.map_cons, List.nodup_append, List.nodup_cons] at h
      intro hcon
      exact h.2.2 hcon (by simp)
    simp only [List.foldl_cons]
    rw [ih (mapSet m (keyOf p) p) (by
      rw [mapSet_keys_new hnotin]
      simpa [List.append_assoc] using h)]
    rw [mapSet_keys_new hnotin]
    simp

theorem buildMapPure_keys_nodup (ps : List CsvProduct) :
    ((buildMapPure ps).map Prod.fst).Nodup := by
  suffices hgen : ∀ m, (m.map Prod.fst).Nodup →
      ((ps.foldl (fun m p => mapSet m (keyOf p) p) m).map Prod.fst).Nodup from
    hgen [] (by simp)
  induction ps with
  | nil => intro m h; simpa
  | cons p rest ih =>
    intro m h
    simp only [List.foldl_cons]
    apply ih
    by_cases hk : keyOf p ∈ m.map Prod.fst
    · rw [mapSet_keys_mem hk]; exact h
    · rw [mapSet_keys_new hk]
      simp [List.nodup_append, h, hk]

theorem buildMapPure_length_of_nodup (ps : List CsvProduct)
    (h : (ps.map keyOf).Nodup) : (buildMapPure ps).length = ps.length := by
  have h2 := buildMapPure_go_keys ps [] (by simpa)
  have h3 : (buildMapPure ps).map Prod.fst = ps.map keyOf := by
    simpa [buildMapPure] using h2
  calc (buildMapPure ps).length
      = ((buildMapPure ps).map Prod.fst).length := by simp
    _ = (ps.map keyOf).length := by rw [h3]
    _ = ps.length := by simp



/-- A finite page sequence is chained when every page except the last
carries a parseable next link and the last page carries none. -/
def chainPages : List PageResponse → Prop
  | [] => True
  | [p] => parseNextUrl p.linkHeader = none
  | p :: q :: rest => (parseNextUrl p.linkHeader).isSome ∧ chainPages (q :: rest)

/-- Modelled from the spec: the fetch trace the Paginator is expected to
perform from a start URL over a page sequence — one fetch per page,
following each parsed next link, stopping when a page has none.  The
boolean records whether the page-size/projection params accompany the
fetch, which in the source happens exactly when the URL equals the
original base URL. -/
def expectedTrace (baseUrl : String) : String → List PageResponse → List (String × Bool)
  | _, [] => []
  | u, p :: rest =>
    (u, u == baseUrl) ::
      (match parseNextUrl p.linkHeader with
       | some u2 => expectedTrace baseUrl u2 rest
       | none => [])

theorem toString_intCast_nat (k : ℕ) : toString ((k : ℤ)) = toString k := rfl

theorem toFixed2_of_floor (q : ℚ) (n : ℕ)
    (h : ⌊q * 100 + 1 / 2⌋ = (n : ℤ)) :
    toFixed2 q = toString (n / 100) ++ "." ++ pad2 (n % 100) := by
  simp only [toFixed2, h]
  have h1 : ((n : ℤ) / 100) = ((n / 100 : ℕ) : ℤ) := by omega
  have h2 : ((n : ℤ) % 100).toNat = n % 100 := by omega
  rw [h1, h2, toString_intCast_nat]

theorem matchRate_eq_toFixed2 (matched total : Nat) (h : total ≠ 0) :
    matchRateStr matched total =
      toFixed2 (((matched : ℚ) / (total : ℚ)) * 100) := by
  have ht : (total : ℚ) ≠ 0 := Nat.cast_ne_zero.mpr h
  have hq : ((matched : ℚ) / total * 100) * 100 + 1 / 2 =
      ((20000 * matched + total : ℕ) : ℚ) / ((2 * total : ℕ) : ℚ) := by
    push_cast
    field_simp
    ring
  have hfloor : ⌊((matched : ℚ) / total * 100) * 100 + 1 / 2⌋ =
      (((20000 * matched + total) / (2 * total) : ℕ) : ℤ) := by
    rw [hq, ← Int.natCast_floor_eq_floor (by positivity),
      Nat.floor_div_eq_div]
  rw [toFixed2_of_floor _ _ hfloor]
  simp only [matchRateStr]
  rw [if_neg h]



theorem expectedTrace_cons_some {baseUrl u u2 : String} {p : PageResponse}
    {rest : List PageResponse} (h : parseNextUrl p.linkHeader = some u2) :
    expectedTrace baseUrl u (p :: rest) =
      (u, u == baseUrl) :: expectedTrace baseUrl u2 rest := by
  simp [expectedTrace, h]

theorem expectedTrace_cons_none {baseUrl u : String} {p : PageResponse}
    {rest : List PageResponse} (h : parseNextUrl p.linkHeader = none) :
    expectedTrace baseUrl u (p :: rest) = [(u, u == baseUrl)] := by
  simp [expectedTrace, h]

theorem paginateLoop_trace (baseUrl : String) :
    ∀ (pages : List PageResponse) (u : String) (st : LoopState),
      chainPages pages →
      (paginateLoop baseUrl (some u) (pages.map FetchResult.ok) st).fetches =
        st.fetches ++ expectedTrace baseUrl u pages ∧
      (expectedTrace baseUrl u pages).length = pages.length := by
  intro pages
  induction pages with
  | nil =>
    intro u st hch
    simp [paginateLoop_nil, expectedTrace]
  | cons p rest ih =>
    intro u st hch
    cases rest with
    | nil =>
      have hnone : parseNextUrl p.linkHeader = none := hch
      rw [List.map_cons, List.map_nil, paginateLoop_cons_ok, hnone,
        paginateLoop_none, expectedTrace_cons_none hnone]
      simp
    | cons q rest2 =>
      obtain ⟨hsome, hch2⟩ := hch
      obtain ⟨u2, hu2⟩ := Option.isSome_iff_exists.mp hsome
      have hstep : paginateLoop baseUrl (some u)
          ((p :: q :: rest2).map FetchResult.ok) st =
          paginateLoop baseUrl (some u2) ((q :: rest2).map FetchResult.ok)
            ⟨(runMatch p.products st.map).2,
              st.results ++ (runMatch p.products st.map).1,
              st.totalProducts + p.products.length,
              st.fetches ++ [(u, u == baseUrl)]⟩ := by
        rw [List.map_cons, paginateLoop_cons_ok, hu2]
      have hrec := ih u2 ⟨(runMatch p.products st.map).2,
        st.results ++ (runMatch p.products st.map).1,
        st.totalProducts + p.products.length,
        st.fetches ++ [(u, u == baseUrl)]⟩ hch2
      constructor
      · rw [hstep, hrec.1, expectedTrace_cons_some hu2]
        simp
      · rw [expectedTrace_cons_some hu2]
        simp [hrec.2]



theorem endpoint_of_names (ps : List CsvProduct) (baseUrl : String)
    (upstream : List FetchResult) (hnames : ∀ p ∈ ps, p.name.isSome) :
    productsAvailability true baseUrl (.arr ps) upstream =
      .success (paginateLoop baseUrl (some baseUrl) upstream
          ⟨buildMapPure ps, [], 0, []⟩).results
        ⟨ps.length,
          (paginateLoop baseUrl (some baseUrl) upstream
            ⟨buildMapPure ps, [], 0, []⟩).totalProducts,
          (paginateLoop baseUrl (some baseUrl) upstream
            ⟨buildMapPure ps, [], 0, []⟩).results.length,
          (paginateLoop baseUrl (some baseUrl) upstream
            ⟨buildMapPure ps, [], 0, []⟩).map.length,
          matchRateStr
            (paginateLoop baseUrl (some baseUrl) upstream
              ⟨buildMapPure ps, [], 0, []⟩).results.length ps.length⟩ := by
  simp [productsAvailability, buildMap_ok_of_names ps hnames]

/-- C1 counterexample: with external products `[{name:"A"},{name:"a"}]`
(two entries normalising to the same key `"a"`) and an upstream yielding
no catalog products, the reported stats are `total = 2`, `matched = 0`,
`unmatched = 1`, and `0 + 1 ≠ 2`: the conservation equation fails on
lists with duplicate normalised keys. -/
theorem c1_conservation_counterexample :
    statsOf (productsAvailability true "b"
        (.arr [⟨some "A", 0⟩, ⟨some "a", 1⟩]) []) =
      some ⟨2, 0, 0, 1, "0.00"⟩ ∧ (0 + 1 : Nat) ≠ 2 := by
  constructor
  · decide
  · decide

/-- C1 (amended): after every completed run the stats satisfy
`matchedProducts + unmatchedProducts = number of distinct normalised
keys`; when the normalised names of the input are pairwise distinct this
equals `totalCsvProducts`, i.e. the conservation equation of the claim
holds exactly for duplicate-free inputs. -/
theorem c1_conservation_distinct_keys (ps : List CsvProduct)
    (baseUrl : String) (upstream : List FetchResult)
    (hnames : ∀ p ∈ ps, p.name.isSome)
    (hkeys : (ps.map keyOf).Nodup) :
    ∃ rs st, productsAvailability true baseUrl (.arr ps) upstream =
        .success rs st ∧
      st.matchedProducts + st.unmatchedProducts = st.totalCsvProducts := by
  rw [endpoint_of_names ps baseUrl upstream hnames]
  refine ⟨_, _, rfl, ?_⟩
  have hcons := paginateLoop_conservation baseUrl upstream (some baseUrl)
    ⟨buildMapPure ps, [], 0, []⟩
  have hlen := buildMapPure_length_of_nodup ps hkeys
  simpa [hlen] using hcons

/-- Witness for C1 (amended) at a concrete duplicate-free input. -/
theorem c1_conservation_distinct_keys_witness :
    ∃ rs st, productsAvailability true "b"
        (.arr [⟨some "Alpha", 0⟩, ⟨some "Beta", 1⟩])
        [.ok ⟨[⟨5, "Alpha", some [⟨some 2⟩], []⟩], none⟩] =
        .success rs st ∧
      st.matchedProducts + st.unmatchedProducts = st.totalCsvProducts :=
  c1_conservation_distinct_keys [⟨some "Alpha", 0⟩, ⟨some "Beta", 1⟩] "b"
    [.ok ⟨[⟨5, "Alpha", some [⟨some 2⟩], []⟩], none⟩]
    (by decide) (by decide)

/-- C2 counterexample: an empty `products` array is NOT rejected with a
400 — it passes validation and the request completes with a 200 success
response; and an element lacking a `name` produces a 500 (the TypeError
lands in the outer catch), not a 400. -/
theorem c2_validation_counterexample :
    isBadRequest (productsAvailability true "b" (.arr []) []) = false ∧
    productsAvailability true "b" (.arr []) [] =
      .success [] ⟨0, 0, 0, 0, "NaN"⟩ ∧
    isBadRequest (productsAvailability true "b" (.arr [⟨none, 0⟩]) []) =
      false ∧
    isServerError (productsAvailability true "b" (.arr [⟨none, 0⟩]) []) =
      true := by
  refine ⟨by decide, by decide, by decide, by decide⟩

/-- C2 (amended): the endpoint answers 400 exactly when the `products`
field is missing/falsy or not an array; an empty array passes validation
and the request succeeds with a 200, and an element lacking a `name`
makes the handler throw, which surfaces as a 500 carrying the TypeError
message — not a 400. -/
theorem c2_validation_amended (ps : List CsvProduct) (baseUrl : String)
    (upstream : List FetchResult) (hasToken : Bool) :
    productsAvailability hasToken baseUrl .absent upstream =
      .badRequest "Lista prodotti mancante o invalida" ∧
    productsAvailability hasToken baseUrl .notArray upstream =
      .badRequest "Lista prodotti mancante o invalida" ∧
    ((∃ p ∈ ps, p.name = none) →
      productsAvailability true baseUrl (.arr ps) upstream =
        .serverError typeErrorMsg) ∧
    (∃ rs st, productsAvailability true baseUrl (.arr []) upstream =
      .success rs st) := by
  refine ⟨rfl, rfl, ?_, ?_⟩
  · intro hmissing
    simp [productsAvailability, buildMap_error_of_none ps hmissing]
  · rw [endpoint_of_names [] baseUrl upstream (by simp)]
    exact ⟨_, _, rfl⟩

/-- Witness for C2 (amended) at concrete inputs. -/
theorem c2_validation_amended_witness :
    productsAvailability true "b" (.arr [⟨none, 0⟩]) [] =
      .serverError typeErrorMsg ∧
    (∃ rs st, productsAvailability true "b" (.arr []) [] =
      .success rs st) :=
  ⟨(c2_validation_amended [⟨none, 0⟩] "b" [] true).2.2.1
      ⟨⟨none, 0⟩, by decide, rfl⟩,
    (c2_validation_amended [⟨none, 0⟩] "b" [] true).2.2.2⟩



/-- C3: for a catalog product whose normalised title is compatible (by
bidirectional substring containment) with the key of entry `e` of the
current map, and with every key before `e` incompatible, the matcher
binds the product to `e` (the first-inserted compatible key), emits
exactly one MatchResult, removes that key from the map (later compatible
keys such as those in `post` are left untouched and not scanned
further), and processing continues with the remaining catalog products
against the shrunk map. -/
theorem c3_greedy_first_match (sp : ShopifyProduct)
    (rest : List ShopifyProduct)
    (pre post : List (String × CsvProduct)) (e : String × CsvProduct)
    (hpre : ∀ x ∈ pre, keyMatches (normKey sp.title) x.1 = false)
    (he : keyMatches (normKey sp.title) e.1 = true) :
    matchProduct sp (pre ++ e :: post) =
      (some (mkResult e.1 e.2 sp), pre ++ post) ∧
    runMatch (sp :: rest) (pre ++ e :: post) =
      (mkResult e.1 e.2 sp :: (runMatch rest (pre ++ post)).1,
        (runMatch rest (pre ++ post)).2) := by
  have hfind : (pre ++ e :: post).find?
      (fun x => keyMatches (normKey sp.title) x.1) = some e :=
    find?_append_first _ pre post e hpre he
  have herase : (pre ++ e :: post).eraseP (fun x => x.1 == e.1) =
      pre ++ post := by
    rw [List.eraseP_append_right]
    · simp [List.eraseP_cons]
    · intro b hb
      simp only [beq_iff_eq]
      intro hbe
      have := hpre b hb
      rw [hbe] at this
      rw [this] at he
      exact Bool.false_ne_true he
  have hmp : matchProduct sp (pre ++ e :: post) =
      (some (mkResult e.1 e.2 sp), pre ++ post) := by
    rw [matchProduct_eq_some hfind, herase]
  exact ⟨hmp, runMatch_cons_some hmp⟩

/-- Witness for C3: the spec's greedy-order example.  External keys
`"blue shirt"` (first-inserted) and `"shirt"` are both compatible with
catalog title `"Blue Shirt Deluxe"`; an incompatible key sits in front.
The first-inserted compatible key wins and is removed; `"shirt"`
survives. -/
theorem c3_greedy_first_match_witness :
    matchProduct ⟨7, "Blue Shirt Deluxe", some [], []⟩
        [("socks", ⟨some "Socks", 0⟩), ("blue shirt", ⟨some "Blue Shirt", 1⟩),
          ("shirt", ⟨some "Shirt", 2⟩)] =
      (some (mkResult "blue shirt" ⟨some "Blue Shirt", 1⟩
          ⟨7, "Blue Shirt Deluxe", some [], []⟩),
        [("socks", ⟨some "Socks", 0⟩), ("shirt", ⟨some "Shirt", 2⟩)]) ∧
    runMatch [⟨7, "Blue Shirt Deluxe", some [], []⟩]
        [("socks", ⟨some "Socks", 0⟩), ("blue shirt", ⟨some "Blue Shirt", 1⟩),
          ("shirt", ⟨some "Shirt", 2⟩)] =
      (mkResult "blue shirt" ⟨some "Blue Shirt", 1⟩
          ⟨7, "Blue Shirt Deluxe", some [], []⟩ ::
          (runMatch [] [("socks", ⟨some "Socks", 0⟩),
            ("shirt", ⟨some "Shirt", 2⟩)]).1,
        (runMatch [] [("socks", ⟨some "Socks", 0⟩),
          ("shirt", ⟨some "Shirt", 2⟩)]).2) := by
  exact c3_greedy_first_match ⟨7, "Blue Shirt Deluxe", some [], []⟩ []
    [("socks", ⟨some "Socks", 0⟩)]
    [("shirt", ⟨some "Shirt", 2⟩)]
    ("blue shirt", ⟨some "Blue Shirt", 1⟩)
    (by decide) (by decide)

/-- C4 counterexample: a transport failure on the very first page fetch
does NOT produce a 500 — the error is swallowed by the loop's catch
(which only logs and breaks) and the request completes with a 200
success response in which the upstream error message appears nowhere. -/
theorem c4_error_counterexample :
    productsAvailability true "b" (.arr [⟨some "X", 0⟩])
        [.err "socket hang up"] =
      .success [] ⟨1, 0, 0, 1, "0.00"⟩ ∧
    isServerError (productsAvailability true "b" (.arr [⟨some "X", 0⟩])
      [.err "socket hang up"]) = false := by
  refine ⟨by decide, by decide⟩

/-- C4 (amended): a network/HTTP failure while paginating is logged and
swallowed: pagination aborts and the request still completes with a 200
success response built from the partial accumulation; for every valid
request (array body, all names present, token configured) no upstream
behaviour whatsoever can produce a 500. -/
theorem c4_transport_error_swallowed (ps : List CsvProduct)
    (baseUrl : String) (upstream : List FetchResult)
    (hnames : ∀ p ∈ ps, p.name.isSome) :
    ∃ rs st, productsAvailability true baseUrl (.arr ps) upstream =
      .success rs st := by
  rw [endpoint_of_names ps baseUrl upstream hnames]
  exact ⟨_, _, rfl⟩

/-- Witness for C4 (amended): a failing fetch still yields a 200. -/
theorem c4_transport_error_swallowed_witness :
    ∃ rs st, productsAvailability true "b" (.arr [⟨some "X", 0⟩])
      [.err "timeout of 30000ms exceeded"] = .success rs st :=
  c4_transport_error_swallowed [⟨some "X", 0⟩] "b"
    [.err "timeout of 30000ms exceeded"] (by decide)

/-- Every page of the list carries a parseable next link, so after each
of them the loop proceeds to a further fetch. -/
def allHaveNext : List PageResponse → Prop
  | [] => True
  | p :: rest => (parseNextUrl p.linkHeader).isSome ∧ allHaveNext rest

theorem runMatch_append (l1 l2 : List ShopifyProduct) :
    ∀ m, runMatch (l1 ++ l2) m =
      ((runMatch l1 m).1 ++ (runMatch l2 (runMatch l1 m).2).1,
        (runMatch l2 (runMatch l1 m).2).2) := by
  induction l1 with
  | nil => intro m; simp [runMatch]
  | cons sp rest ih =>
    intro m
    cases hf : m.find? (fun x => keyMatches (normKey sp.title) x.1) with
    | none =>
      rw [List.cons_append, runMatch_cons_none (matchProduct_eq_none hf),
        runMatch_cons_none (matchProduct_eq_none hf), ih]
    | some e =>
      rw [List.cons_append, runMatch_cons_some (matchProduct_eq_some hf),
        runMatch_cons_some (matchProduct_eq_some hf), ih]
      simp

theorem paginateLoop_abort (baseUrl emsg : String) (junk : List FetchResult) :
    ∀ (pages : List PageResponse) (u : String) (st : LoopState),
      allHaveNext pages →
      (paginateLoop baseUrl (some u)
          (pages.map FetchResult.ok ++ .err emsg :: junk) st).map =
        (runMatch ((pages.map PageResponse.products).flatten) st.map).2 ∧
      (paginateLoop baseUrl (some u)
          (pages.map FetchResult.ok ++ .err emsg :: junk) st).results =
        st.results ++
          (runMatch ((pages.map PageResponse.products).flatten) st.map).1 ∧
      (paginateLoop baseUrl (some u)
          (pages.map FetchResult.ok ++ .err emsg :: junk) st).totalProducts =
        st.totalProducts +
          ((pages.map PageResponse.products).flatten).length := by
  intro pages
  induction pages with
  | nil =>
    intro u st hch
    rw [List.map_nil, List.nil_append, paginateLoop_cons_err]
    simp [runMatch]
  | cons p rest ih =>
    intro u st hch
    obtain ⟨hsome, hch2⟩ := hch
    obtain ⟨u2, hu2⟩ := Option.isSome_iff_exists.mp hsome
    rw [List.map_cons, List.cons_append, paginateLoop_cons_ok, hu2]
    obtain ⟨h1, h2, h3⟩ := ih u2 ⟨(runMatch p.products st.map).2,
      st.results ++ (runMatch p.products st.map).1,
      st.totalProducts + p.products.length,
      st.fetches ++ [(u, u == baseUrl)]⟩ hch2
    refine ⟨?_, ?_, ?_⟩
    · rw [h1]
      simp [runMatch_append]
    · rw [h2]
      simp [runMatch_append]
    · rw [h3]
      simp only [List.map_cons, List.flatten_cons, List.length_append]
      omega

/-- C5: if the fetch following any number N of successfully processed
pages fails at transport level, pagination aborts immediately — no
retry, and the junk after the error is never consumed — and the
response reports exactly the MatchResults accumulated from pages 1..N
(their products processed in order against the shrinking map), with
`totalShopifyProducts` equal to the product count of those N pages
only. -/
theorem c5_abort_partial (ps : List CsvProduct) (baseUrl emsg : String)
    (pages : List PageResponse) (junk : List FetchResult)
    (hnames : ∀ p ∈ ps, p.name.isSome)
    (hnext : allHaveNext pages) :
    productsAvailability true baseUrl (.arr ps)
        (pages.map FetchResult.ok ++ .err emsg :: junk) =
      .success (runMatch ((pages.map PageResponse.products).flatten)
          (buildMapPure ps)).1
        ⟨ps.length, ((pages.map PageResponse.products).flatten).length,
          (runMatch ((pages.map PageResponse.products).flatten)
            (buildMapPure ps)).1.length,
          (runMatch ((pages.map PageResponse.products).flatten)
            (buildMapPure ps)).2.length,
          matchRateStr
            (runMatch ((pages.map PageResponse.products).flatten)
              (buildMapPure ps)).1.length ps.length⟩ := by
  rw [endpoint_of_names ps baseUrl _ hnames]
  obtain ⟨h1, h2, h3⟩ := paginateLoop_abort baseUrl emsg junk pages baseUrl
    ⟨buildMapPure ps, [], 0, []⟩ hnext
  rw [h1, h2, h3]
  simp

/-- Witness for C5: two successful pages (each carrying a next link),
then a failing fetch; the response carries both pages' matches and
counts both pages' products only, never consuming the content after the
error. -/
theorem c5_abort_partial_witness :
    productsAvailability true "b"
        (.arr [⟨some "Blue Shirt", 0⟩, ⟨some "Red Hat", 1⟩])
        ([⟨[⟨3, "Blue Shirt", some [⟨some 4⟩], []⟩],
            some "<https://s/page2>; rel=\"next\""⟩,
          ⟨[⟨4, "Red Hat", some [⟨some 1⟩, ⟨none⟩], []⟩],
            some "<https://s/page3>; rel=\"next\""⟩].map FetchResult.ok ++
          .err "socket hang up" ::
            [.ok ⟨[⟨9, "Blue Shirt", none, []⟩], none⟩]) =
      .success (runMatch (([⟨[⟨3, "Blue Shirt", some [⟨some 4⟩], []⟩],
            some "<https://s/page2>; rel=\"next\""⟩,
          ⟨[⟨4, "Red Hat", some [⟨some 1⟩, ⟨none⟩], []⟩],
            some "<https://s/page3>; rel=\"next\""⟩].map
              PageResponse.products).flatten)
          (buildMapPure [⟨some "Blue Shirt", 0⟩, ⟨some "Red Hat", 1⟩])).1
        ⟨2,
          (([⟨[⟨3, "Blue Shirt", some [⟨some 4⟩], []⟩],
              some "<https://s/page2>; rel=\"next\""⟩,
            ⟨[⟨4, "Red Hat", some [⟨some 1⟩, ⟨none⟩], []⟩],
              some "<https://s/page3>; rel=\"next\""⟩].map
                PageResponse.products).flatten).length,
          (runMatch (([⟨[⟨3, "Blue Shirt", some [⟨some 4⟩], []⟩],
              some "<https://s/page2>; rel=\"next\""⟩,
            ⟨[⟨4, "Red Hat", some [⟨some 1⟩, ⟨none⟩], []⟩],
              some "<https://s/page3>; rel=\"next\""⟩].map
                PageResponse.products).flatten)
            (buildMapPure [⟨some "Blue Shirt", 0⟩, ⟨some "Red Hat", 1⟩])).1.length,
          (runMatch (([⟨[⟨3, "Blue Shirt", some [⟨some 4⟩], []⟩],
              some "<https://s/page2>; rel=\"next\""⟩,
            ⟨[⟨4, "Red Hat", some [⟨some 1⟩, ⟨none⟩], []⟩],
              some "<https://s/page3>; rel=\"next\""⟩].map
                PageResponse.products).flatten)
            (buildMapPure [⟨some "Blue Shirt", 0⟩, ⟨some "Red Hat", 1⟩])).2.length,
          matchRateStr
            (runMatch (([⟨[⟨3, "Blue Shirt", some [⟨some 4⟩], []⟩],
                some "<https://s/page2>; rel=\"next\""⟩,
              ⟨[⟨4, "Red Hat", some [⟨some 1⟩, ⟨none⟩], []⟩],
                some "<https://s/page3>; rel=\"next\""⟩].map
                  PageResponse.products).flatten)
              (buildMapPure [⟨some "Blue Shirt", 0⟩,
                ⟨some "Red Hat", 1⟩])).1.length 2⟩ := by
  exact c5_abort_partial [⟨some "Blue Shirt", 0⟩, ⟨some "Red Hat", 1⟩]
    "b" "socket hang up"
    [⟨[⟨3, "Blue Shirt", some [⟨some 4⟩], []⟩],
        some "<https://s/page2>; rel=\"next\""⟩,
      ⟨[⟨4, "Red Hat", some [⟨some 1⟩, ⟨none⟩], []⟩],
        some "<https://s/page3>; rel=\"next\""⟩]
    [.ok ⟨[⟨9, "Blue Shirt", none, []⟩], none⟩]
    (by decide) ⟨by decide, by decide, trivial⟩



/-- C6 counterexample: an empty external product list reaches the rate
computation (validation does not reject it) and the reported matchRate
is the string `"NaN"` — not `"0.00"`. -/
theorem c6_matchrate_counterexample :
    statsOf (productsAvailability true "b" (.arr [])
        [.ok ⟨[⟨1, "t", none, []⟩], none⟩]) =
      some ⟨0, 1, 0, 0, "NaN"⟩ ∧
    ("NaN" : String) ≠ "0.00" := by
  refine ⟨by decide, by decide⟩

/-- C6 (amended): there is no division guard — when `totalExternal = 0`
the reported matchRate is `"NaN"` (the JS rendering of `0/0`), never
`"0.00"`; for non-empty lists matchRate equals
`(results.length / totalExternal) * 100` formatted to two decimal
places. -/
theorem c6_matchrate_amended (ps : List CsvProduct) (baseUrl : String)
    (upstream : List FetchResult) (hnames : ∀ p ∈ ps, p.name.isSome) :
    ∀ rs st, productsAvailability true baseUrl (.arr ps) upstream =
        .success rs st →
      (ps = [] → st.matchRate = "NaN") ∧
      (ps ≠ [] →
        st.matchRate =
          toFixed2 (((rs.length : ℚ) / (ps.length : ℚ)) * 100)) := by
  intro rs st heq
  rw [endpoint_of_names ps baseUrl upstream hnames] at heq
  obtain ⟨hrs, hst⟩ := ApiResponse.success.inj heq
  constructor
  · intro hnil
    subst hnil
    have hcons := paginateLoop_conservation baseUrl upstream (some baseUrl)
      ⟨buildMapPure [], [], 0, []⟩
    have hcons2 : (paginateLoop baseUrl (some baseUrl) upstream
          ⟨buildMapPure [], [], 0, []⟩).results.length +
        (paginateLoop baseUrl (some baseUrl) upstream
          ⟨buildMapPure [], [], 0, []⟩).map.length = 0 := by
      simpa [buildMapPure] using hcons
    have hzero : (paginateLoop baseUrl (some baseUrl) upstream
        ⟨buildMapPure [], [], 0, []⟩).results.length = 0 := by
      omega
    rw [← hst]
    simp [hzero, matchRateStr]
  · intro hne
    have hlen : ps.length ≠ 0 := by
      simpa [List.length_eq_zero] using hne
    rw [← hst, ← hrs]
    simp only
    exact matchRate_eq_toFixed2 _ ps.length hlen

/-- Witness for C6 (amended): one unmatched product gives rate `"0.00"`,
which indeed equals the two-decimal formatting of `(0/1)*100`; an empty
list gives `"NaN"`. -/
theorem c6_matchrate_amended_witness :
    (Stats.mk 1 0 0 1 "0.00").matchRate =
      toFixed2 (((([] : List MatchResult).length : ℚ) /
        (([(⟨some "A", 0⟩ : CsvProduct)]).length : ℚ)) * 100) ∧
    (Stats.mk 0 0 0 0 "NaN").matchRate = "NaN" := by
  refine ⟨(c6_matchrate_amended [⟨some "A", 0⟩] "b" [] (by decide)
      [] ⟨1, 0, 0, 1, "0.00"⟩ (by decide)).2 (by decide), ?_⟩
  exact (c6_matchrate_amended [] "b" [] (by decide)
    [] ⟨0, 0, 0, 0, "NaN"⟩ (by decide)).1 rfl

/-- C7: for every catalog product, the availability recorded in a
MatchResult equals the sum of `inventory_quantity` over its variants
with missing/null counted as 0; a product with no `variants` field or an
empty variants array yields 0; and whether a product matches does not
depend on its variants at all, so a zero-variant product is still
recorded as a match when its title matches. -/
theorem c7_available_quantity (sp : ShopifyProduct) :
    totalAvailable sp =
      ((sp.variants.getD []).map
        (fun v => v.inventory_quantity.getD 0)).sum ∧
    (sp.variants = none → totalAvailable sp = 0) ∧
    (sp.variants = some [] → totalAvailable sp = 0) ∧
    (∀ m r m2, matchProduct sp m = (some r, m2) →
      r.available = totalAvailable sp) ∧
    (∀ m, ((matchProduct sp m).1).isSome =
      ((matchProduct ⟨sp.id, sp.title, none, sp.images⟩ m).1).isSome) := by
  have hsum : ∀ (vs : List Variant) (a : Int),
      vs.foldl (fun acc v => acc + v.inventory_quantity.getD 0) a =
        a + (vs.map (fun v => v.inventory_quantity.getD 0)).sum := by
    intro vs
    induction vs with
    | nil => intro a; simp
    | cons v rest ih =>
      intro a
      simp only [List.foldl_cons, List.map_cons, List.sum_cons, ih]
      ring
  refine ⟨?_, ?_, ?_, ?_, ?_⟩
  · cases hv : sp.variants with
    | none => simp [totalAvailable, hv]
    | some vs => simp [totalAvailable, hv, hsum vs 0]
  · intro hv; simp [totalAvailable, hv]
  · intro hv; simp [totalAvailable, hv]
  · intro m r m2 h
    cases hf : m.find? (fun x => keyMatches (normKey sp.title) x.1) with
    | none =>
      rw [matchProduct_eq_none hf] at h
      exact absurd (congrArg Prod.fst h) (by simp)
    | some e =>
      rw [matchProduct_eq_some hf] at h
      have : some (mkResult e.1 e.2 sp) = some r := congrArg Prod.fst h
      have hr : r = mkResult e.1 e.2 sp := (Option.some.inj this).symm
      rw [hr]
      rfl
  · intro m
    cases hf : m.find? (fun x => keyMatches (normKey sp.title) x.1) with
    | none =>
      rw [matchProduct_eq_none hf,
        @matchProduct_eq_none ⟨sp.id, sp.title, none, sp.images⟩ m hf]
    | some e =>
      rw [matchProduct_eq_some hf,
        @matchProduct_eq_some ⟨sp.id, sp.title, none, sp.images⟩ m e hf]
      simp

/-- Witness for C7: the spec's example `[3, null, 2]` sums to `5`, and a
concrete matched product records exactly `totalAvailable`. -/
theorem c7_available_quantity_witness :
    totalAvailable ⟨1, "x", some [⟨some 3⟩, ⟨none⟩, ⟨some 2⟩], []⟩ = 5 ∧
    totalAvailable ⟨1, "x", some [⟨some 3⟩, ⟨none⟩, ⟨some 2⟩], []⟩ =
      ((((⟨1, "x", some [⟨some 3⟩, ⟨none⟩, ⟨some 2⟩], []⟩ :
          ShopifyProduct)).variants.getD []).map
        (fun v => v.inventory_quantity.getD 0)).sum ∧
    (mkResult "x" ⟨some "x", 0⟩
        ⟨1, "x", some [⟨some 3⟩, ⟨none⟩, ⟨some 2⟩], []⟩).available =
      totalAvailable ⟨1, "x", some [⟨some 3⟩, ⟨none⟩, ⟨some 2⟩], []⟩ := by
  refine ⟨by decide,
    (c7_available_quantity ⟨1, "x", some [⟨some 3⟩, ⟨none⟩, ⟨some 2⟩], []⟩).1,
    (c7_available_quantity
        ⟨1, "x", some [⟨some 3⟩, ⟨none⟩, ⟨some 2⟩], []⟩).2.2.2.1
      [("x", ⟨some "x", 0⟩)]
      (mkResult "x" ⟨some "x", 0⟩
        ⟨1, "x", some [⟨some 3⟩, ⟨none⟩, ⟨some 2⟩], []⟩) [] (by decide)⟩



/-- C8 counterexample: when a page's Link header names the original base
URL as the `rel="next"` target, the follow-up GET re-sends the
`limit`/`fields` parameters (the source tests "first request" by URL
equality, `nextPageUrl === shopifyUrl`): the second fetch of this run
carries `true` in the params slot, contradicting "without re-sending the
limit/fields parameters". -/
theorem c8_params_counterexample :
    (paginateLoop "https://s/products.json" (some "https://s/products.json")
        [.ok ⟨[], some "<https://s/products.json>; rel=\"next\""⟩,
          .ok ⟨[], none⟩]
        ⟨[], [], 0, []⟩).fetches =
      [("https://s/products.json", true),
        ("https://s/products.json", true)] := by
  decide

/-- C8 (amended): the paginator performs exactly one fetch per page: for
every chained page sequence (each page but the last carrying a parseable
next link, the last carrying none) the fetch trace is exactly one entry
per page, each targeting the URL parsed from the previous page's link,
with the `limit`/`fields` params sent exactly when that URL equals the
original base URL; and as soon as a page carries no next link the loop
stops regardless of any later content. -/
theorem c8_pagination_count (baseUrl u : String)
    (pages : List PageResponse) (st : LoopState) (h : chainPages pages) :
    ((paginateLoop baseUrl (some u) (pages.map FetchResult.ok) st).fetches =
        st.fetches ++ expectedTrace baseUrl u pages ∧
      (expectedTrace baseUrl u pages).length = pages.length) ∧
    (∀ (p : PageResponse) (junk : List FetchResult) (u2 : String)
        (st2 : LoopState),
      parseNextUrl p.linkHeader = none →
      (paginateLoop baseUrl (some u2) (.ok p :: junk) st2).fetches =
        st2.fetches ++ [(u2, u2 == baseUrl)]) := by
  refine ⟨paginateLoop_trace baseUrl pages u st h, ?_⟩
  intro p junk u2 st2 hnone
  rw [paginateLoop_cons_ok, hnone, paginateLoop_none]

/-- Witness for C8 (amended): a concrete 3-page chained sequence yields
exactly 3 fetches, and a no-next page stops the loop with one fetch. -/
theorem c8_pagination_count_witness :
    ((paginateLoop "https://s/products.json" (some "https://s/products.json")
        ([⟨[], some "<https://s/p2>; rel=\"next\""⟩,
          ⟨[], some "<https://s/p3>; rel=\"next\""⟩,
          ⟨[], none⟩].map FetchResult.ok)
        ⟨[], [], 0, []⟩).fetches =
      ([] : List (String × Bool)) ++
        expectedTrace "https://s/products.json" "https://s/products.json"
          [⟨[], some "<https://s/p2>; rel=\"next\""⟩,
            ⟨[], some "<https://s/p3>; rel=\"next\""⟩,
            ⟨[], none⟩] ∧
      (expectedTrace "https://s/products.json" "https://s/products.json"
        [⟨[], some "<https://s/p2>; rel=\"next\""⟩,
          ⟨[], some "<https://s/p3>; rel=\"next\""⟩,
          ⟨[], none⟩]).length =
        ([⟨[], some "<https://s/p2>; rel=\"next\""⟩,
          ⟨[], some "<https://s/p3>; rel=\"next\""⟩,
          (⟨[], none⟩ : PageResponse)]).length) ∧
    (∀ (p : PageResponse) (junk : List FetchResult) (u2 : String)
        (st2 : LoopState),
      parseNextUrl p.linkHeader = none →
      (paginateLoop "https://s/products.json" (some u2) (.ok p :: junk)
          st2).fetches =
        st2.fetches ++ [(u2, u2 == "https://s/products.json")]) := by
  exact c8_pagination_count "https://s/products.json"
    "https://s/products.json"
    [⟨[], some "<https://s/p2>; rel=\"next\""⟩,
      ⟨[], some "<https://s/p3>; rel=\"next\""⟩, ⟨[], none⟩]
    ⟨[], [], 0, []⟩
    ⟨by decide, by decide,
      (by decide : parseNextUrl (⟨[], none⟩ : PageResponse).linkHeader = none)⟩

/-- C9: in every run no two MatchResults reference the same normalised
external key, and the unmatched-product lookup only shrinks over the
course of a session: the final map of any pagination segment is a
sublist of its starting map (keys are removed on match, never
re-added). -/
theorem c9_unique_keys_shrinking (ps : List CsvProduct) (baseUrl : String)
    (upstream : List FetchResult) (hnames : ∀ p ∈ ps, p.name.isSome) :
    (∀ rs st, productsAvailability true baseUrl (.arr ps) upstream =
        .success rs st → (rs.map (fun r => r.csvKey)).Nodup) ∧
    (∀ nextUrl ups st2,
      (paginateLoop baseUrl nextUrl ups st2).map.Sublist st2.map) := by
  constructor
  · intro rs st heq
    rw [endpoint_of_names ps baseUrl upstream hnames] at heq
    obtain ⟨hrs, hst⟩ := ApiResponse.success.inj heq
    rw [← hrs]
    exact paginateLoop_keys baseUrl upstream (some baseUrl)
      ⟨buildMapPure ps, [], 0, []⟩ (buildMapPure_keys_nodup ps)
      (by simp) (by simp)
  · intro nextUrl ups st2
    exact paginateLoop_map_sublist baseUrl ups nextUrl st2

/-- Witness for C9 at a concrete run with two matches. -/
theorem c9_unique_keys_shrinking_witness :
    (∀ rs st, productsAvailability true "b"
        (.arr [⟨some "Alpha", 0⟩, ⟨some "Beta", 1⟩])
        [.ok ⟨[⟨1, "Alpha", none, []⟩, ⟨2, "Beta", none, []⟩], none⟩] =
        .success rs st → (rs.map (fun r => r.csvKey)).Nodup) ∧
    (∀ nextUrl ups st2,
      (paginateLoop "b" nextUrl ups st2).map.Sublist st2.map) :=
  c9_unique_keys_shrinking [⟨some "Alpha", 0⟩, ⟨some "Beta", 1⟩] "b"
    [.ok ⟨[⟨1, "Alpha", none, []⟩, ⟨2, "Beta", none, []⟩], none⟩]
    (by decide)

/-- C10: an external product whose name normalises to the empty string
passes the bidirectional containment test against every catalog title
(every string contains the empty string); if its key is the first entry
of the lookup, the very first catalog product processed binds to it,
regardless of that product's title. -/
theorem c10_empty_key_matches_first (p0 : CsvProduct)
    (rest : List (String × CsvProduct)) (sp : ShopifyProduct)
    (cat : List ShopifyProduct) :
    (∀ t : String, jsIncludes t "" = true) ∧
    matchProduct sp (("", p0) :: rest) = (some (mkResult "" p0 sp), rest) ∧
    (runMatch (sp :: cat) (("", p0) :: rest)).1.head? =
      some (mkResult "" p0 sp) := by
  have hinc : ∀ t : String, jsIncludes t "" = true := by
    intro t
    exact isInfixL_nil t.data
  have hkm : keyMatches (normKey sp.title) "" = true := by
    simp [keyMatches, hinc]
  have hfind : (("", p0) :: rest).find?
      (fun x => keyMatches (normKey sp.title) x.1) = some ("", p0) := by
    rw [List.find?_cons_of_pos]
    exact hkm
  have hmp : matchProduct sp (("", p0) :: rest) =
      (some (mkResult "" p0 sp), rest) := by
    rw [matchProduct_eq_some hfind]
    simp [List.eraseP_cons]
  refine ⟨hinc, hmp, ?_⟩
  rw [runMatch_cons_some hmp]
  rfl


end Loft73
